import Mathlib

/-!
Verification of the ScraperPy job-scraping pipeline.

Shallow embedding of `src/scraper.py` and `src/resume_generator.py`:
the merge/dedup routine `append_jobs_to_excel`, the per-card extraction
logic of `scrape_stepstone` and `scrape_linkedin` (with their
within-invocation dedup guard), the orchestrator aggregation of
`scrape_all_platforms`, and the resume-path helpers `detect_language`
and `build_resume_prompt`.

Conventions of the embedding:
- A pandas sheet is a `List Row`; the pipeline only ever appends rows.
- Text returned by `get_text(strip=True)` / `.text.strip()` is modelled
  as the already-stripped text stored in the card structure.
- A Selenium `find_element` that raises (element absent) is an `Option`
  that is `none`; the per-card `try/except: continue` is the `none` case
  of the extraction function.
- Python string containment `w in t` is `strContains t w`; `str.lower`
  is `lowerStr`, `str.startswith` is `startsWithB`, both over the
  character data so the kernel can evaluate them.
-/

/-- One scraped job posting, the dict built by the scrapers. -/
structure JobRecord where
  title : String
  company : String
  location : String
  description : String
  url : String
  posted_date : String
  platform : String
  search_term : String
deriving Repr, DecidableEq

/-- One row of a platform sheet of `jobs.xlsx`, in the fixed column
order Job Title, Company, Location, Description, URL, Posted Date,
Date Added, Applied, Application Date, Status, Notes. -/
structure Row where
  jobTitle : String
  company : String
  location : String
  description : String
  url : String
  postedDate : String
  dateAdded : String
  applied : String
  applicationDate : String
  status : String
  notes : String
deriving Repr, DecidableEq

/-- The dict appended to `new_data` in `append_jobs_to_excel` for one
job: scraped fields plus `Date Added = today`, `Applied = No`,
`Status = New`, empty `Application Date` and `Notes`. -/
def mkRow (today : String) (j : JobRecord) : Row :=
  { jobTitle := j.title
    company := j.company
    location := j.location
    description := j.description
    url := j.url
    postedDate := j.posted_date
    dateAdded := today
    applied := "No"
    applicationDate := ""
    status := "New"
    notes := "" }

/-- `append_jobs_to_excel(new_jobs, platform)` from `src/scraper.py`,
as a function from the existing sheet contents to the new sheet
contents.  Faithful to the source: an empty `new_jobs` list returns
unchanged; the URL filter `df_new[~df_new.URL.isin(existing_urls)]`
runs only when `df_existing` is non-empty; if the filtered batch is
empty nothing is written; otherwise the filtered new rows are
concatenated after the existing rows. -/
def append_jobs_to_excel (today : String) (existing : List Row)
    (newJobs : List JobRecord) : List Row :=
  if newJobs.isEmpty then existing
  else
    let dfNew0 := newJobs.map (mkRow today)
    let dfNew :=
      if existing.isEmpty then dfNew0
      else dfNew0.filter (fun r => !((existing.map Row.url).contains r.url))
    if dfNew.isEmpty then existing
    else if existing.isEmpty then dfNew
    else existing ++ dfNew

/-- The `stepstone_jobs.extend(scrape_stepstone(driver, search_term, ...))`
loop of `scrape_all_platforms`: one platform's per-term scrape results
accumulated across all search terms, before any merge happens. -/
def aggregate_across_terms (scrape : String → List JobRecord)
    (searchTerms : List String) : List JobRecord :=
  searchTerms.foldl (fun acc t => acc ++ scrape t) []

/-- A whole run of merges against one platform sheet, starting from a
freshly-created (empty) sheet: each batch is one `append_jobs_to_excel`
call. -/
def mergeAll (today : String) (batches : List (List JobRecord)) : List Row :=
  batches.foldl (fun sheet b => append_jobs_to_excel today sheet b) []

/-- The URLs of a sheet's rows are pairwise distinct. -/
def urlsDistinct (rows : List Row) : Prop :=
  (rows.map Row.url).Pairwise (· ≠ ·)

/-- The URLs of a batch of scraped records are pairwise distinct. -/
def recUrlsDistinct (recs : List JobRecord) : Prop :=
  (recs.map JobRecord.url).Pairwise (· ≠ ·)

instance (rows : List Row) : Decidable (urlsDistinct rows) := by
  unfold urlsDistinct; infer_instance

instance (recs : List JobRecord) : Decidable (recUrlsDistinct recs) := by
  unfold recUrlsDistinct; infer_instance

theorem mkRow_url (today : String) (j : JobRecord) :
    (mkRow today j).url = j.url := rfl

theorem map_url_mkRow (today : String) (recs : List JobRecord) :
    (recs.map (mkRow today)).map Row.url = recs.map JobRecord.url := by
  rw [List.map_map]; rfl

/-- Merging an empty batch leaves the sheet unchanged. -/
theorem merge_nil_batch (today : String) (existing : List Row) :
    append_jobs_to_excel today existing [] = existing := by
  simp [append_jobs_to_excel]

/-- Merging a non-empty batch into an empty sheet appends every record:
the URL filter of `append_jobs_to_excel` is guarded by
`if not df_existing.empty` and therefore does not run at all. -/
theorem merge_empty_existing (today : String) (newJobs : List JobRecord)
    (h : newJobs ≠ []) :
    append_jobs_to_excel today [] newJobs = newJobs.map (mkRow today) := by
  simp [append_jobs_to_excel, h]

/-- Merging a non-empty batch into a non-empty sheet: rows whose URL
already occurs in the sheet are dropped, the rest are appended. -/
theorem merge_nonempty_existing (today : String) (existing : List Row)
    (newJobs : List JobRecord) (hex : existing ≠ []) (hnew : newJobs ≠ []) :
    append_jobs_to_excel today existing newJobs =
      if ((newJobs.map (mkRow today)).filter
          (fun r => !((existing.map Row.url).contains r.url))).isEmpty then existing
      else existing ++ (newJobs.map (mkRow today)).filter
          (fun r => !((existing.map Row.url).contains r.url)) := by
  simp [append_jobs_to_excel, List.isEmpty_iff, hex, hnew]

/-- The merge result is non-empty as soon as the sheet or the batch is. -/
theorem merge_ne_nil (today : String) (existing : List Row)
    (newJobs : List JobRecord) (h : existing ≠ [] ∨ newJobs ≠ []) :
    append_jobs_to_excel today existing newJobs ≠ [] := by
  by_cases hnew : newJobs = []
  · subst hnew; rw [merge_nil_batch]; tauto
  · by_cases hex : existing = []
    · subst hex; rw [merge_empty_existing today newJobs hnew]; simp [hnew]
    · rw [merge_nonempty_existing today existing newJobs hex hnew]
      split
      · exact hex
      · simp [hex]

/-- After a merge, the URL of every record of the batch occurs among the
URLs of the resulting sheet (either it was already there, or its row was
appended). -/
theorem merge_urls_superset (today : String) (existing : List Row)
    (newJobs : List JobRecord) (j : JobRecord) (hj : j ∈ newJobs) :
    j.url ∈ (append_jobs_to_excel today existing newJobs).map Row.url := by
  have hnew : newJobs ≠ [] := List.ne_nil_of_mem hj
  by_cases hex : existing = []
  · subst hex
    rw [merge_empty_existing today newJobs hnew, map_url_mkRow]
    exact List.mem_map_of_mem _ hj
  · rw [merge_nonempty_existing today existing newJobs hex hnew]
    by_cases hmem : j.url ∈ existing.map Row.url
    · split
      · exact hmem
      · rw [List.map_append]
        exact List.mem_append_left _ hmem
    · have hrow : mkRow today j ∈ (newJobs.map (mkRow today)).filter
          (fun r => !((existing.map Row.url).contains r.url)) := by
        rw [List.mem_filter]
        refine ⟨List.mem_map_of_mem _ hj, ?_⟩
        simp [mkRow_url, List.contains, hmem]
      split
      · rename_i hempty
        rw [List.isEmpty_iff] at hempty
        rw [hempty] at hrow
        cases hrow
      · rw [List.map_append]
        refine List.mem_append_right _ ?_
        exact (mkRow_url today j) ▸ List.mem_map_of_mem Row.url hrow

/-- Merging a batch all of whose URLs are already in a non-empty sheet
leaves the sheet unchanged. -/
theorem merge_absorb (today : String) (sheet : List Row)
    (recs : List JobRecord) (hs : sheet ≠ [])
    (h : ∀ j ∈ recs, j.url ∈ sheet.map Row.url) :
    append_jobs_to_excel today sheet recs = sheet := by
  by_cases hrecs : recs = []
  · subst hrecs; exact merge_nil_batch today sheet
  · rw [merge_nonempty_existing today sheet recs hs hrecs]
    have hfil : (recs.map (mkRow today)).filter
        (fun r => !((sheet.map Row.url).contains r.url)) = [] := by
      rw [List.filter_eq_nil_iff]
      intro r hr
      obtain ⟨j, hj, rfl⟩ := List.mem_map.mp hr
      simp [mkRow_url, List.contains, h j hj]
    rw [hfil]
    simp

/-- One merge step keeps the sheet's URLs pairwise distinct, provided the
batch itself has pairwise-distinct URLs. -/
theorem merge_preserves_urlsDistinct (today : String) (existing : List Row)
    (newJobs : List JobRecord) (hex : urlsDistinct existing)
    (hnew : recUrlsDistinct newJobs) :
    urlsDistinct (append_jobs_to_excel today existing newJobs) := by
  by_cases hn : newJobs = []
  · subst hn; rwa [merge_nil_batch]
  · by_cases he : existing = []
    · subst he; rw [merge_empty_existing today newJobs hn]
      unfold urlsDistinct
      rw [map_url_mkRow]
      exact hnew
    · rw [merge_nonempty_existing today existing newJobs he hn]
      split
      · exact hex
      · unfold urlsDistinct at *
        rw [List.map_append, List.pairwise_append]
        refine ⟨hex, ?_, ?_⟩
        · have hsub : List.Sublist
              (((newJobs.map (mkRow today)).filter
                (fun r => !((existing.map Row.url).contains r.url))).map Row.url)
              ((newJobs.map (mkRow today)).map Row.url) :=
            (List.filter_sublist _).map Row.url
          rw [map_url_mkRow] at hsub
          exact hnew.sublist hsub
        · intro u hu v hv
          obtain ⟨r, hr, rfl⟩ := List.mem_map.mp hv
          have hnotin : r.url ∉ existing.map Row.url := by
            have h2 := (List.mem_filter.mp hr).2
            simpa [List.contains] using h2
          intro hequ
          exact hnotin (hequ ▸ hu)

/-- A whole run of merges from a fresh sheet keeps URLs pairwise
distinct, provided each batch has pairwise-distinct URLs. -/
theorem mergeAll_urlsDistinct (today : String)
    (batches : List (List JobRecord))
    (h : ∀ b ∈ batches, recUrlsDistinct b) :
    urlsDistinct (mergeAll today batches) := by
  suffices H : ∀ (bs : List (List JobRecord)) (acc : List Row),
      urlsDistinct acc → (∀ b ∈ bs, recUrlsDistinct b) →
      urlsDistinct (bs.foldl (fun sheet b => append_jobs_to_excel today sheet b) acc) by
    exact H batches [] (by unfold urlsDistinct; simp) h
  intro bs
  induction bs with
  | nil => intro acc ha _; simpa using ha
  | cons b bs ih =>
    intro acc ha hb
    simp only [List.foldl_cons]
    exact ih _ (merge_preserves_urlsDistinct today acc b ha (hb b (by simp)))
      (fun x hx => hb x (by simp [hx]))

/-! ## Concrete records used as inputs to counterexamples and witnesses -/

/-- A scraped StepStone record with URL a. -/
def recA1 : JobRecord :=
  { title := "Werkstudent Backend", company := "Acme", location := "Berlin",
    description := "d1", url := "a", posted_date := "2026-10-10",
    platform := "StepStone", search_term := "werkstudent IT" }

/-- A second scraped record with the same URL a (a within-batch duplicate). -/
def recA2 : JobRecord :=
  { title := "Werkstudent Backend", company := "Acme", location := "Berlin",
    description := "d2", url := "a", posted_date := "2026-10-10",
    platform := "StepStone", search_term := "werkstudent IT" }

/-- A scraped record with the fresh URL b. -/
def recB1 : JobRecord :=
  { title := "Working Student Data", company := "Beta", location := "Berlin",
    description := "d3", url := "b", posted_date := "2026-10-10",
    platform := "StepStone", search_term := "working student software" }

/-- A record with URL a scraped under search term t1. -/
def recT1 : JobRecord :=
  { title := "Werkstudent Backend", company := "Acme", location := "Berlin",
    description := "d1", url := "a", posted_date := "2026-10-10",
    platform := "StepStone", search_term := "t1" }

/-- The same posting (same URL a) scraped under search term t2. -/
def recT2 : JobRecord :=
  { title := "Werkstudent Backend", company := "Acme", location := "Berlin",
    description := "d1", url := "a", posted_date := "2026-10-10",
    platform := "StepStone", search_term := "t2" }

/-- A per-term scrape outcome: term t1 yields `recT1`, any other term
yields `recT2`; the two results carry the same URL. -/
def cexScrape : String → List JobRecord :=
  fun t => if t = "t1" then [recT1] else [recT2]

/-! ## Claims C1-C5: the merge routine -/

/-- Claim C1 is false on the code: merging a batch holding two records
with the same URL a into an empty sheet persists both rows, because the
URL filter of `append_jobs_to_excel` runs only against a non-empty
existing sheet and never deduplicates within the batch itself. -/
theorem c1_counterexample :
    ((append_jobs_to_excel "2026-10-12" [] [recA1, recA2]).countP
        (fun r => r.url == "a")) = 2 ∧
    ¬ ((append_jobs_to_excel "2026-10-12" [] [recA1, recA2]).countP
        (fun r => r.url == "a")) = 1 := by
  constructor <;> decide

/-- Claim C1 (amended): for an empty platform sheet, merging a
new_records list containing two records with the same URL a produces
exactly two persisted rows with URL a - the merge drops duplicates only
against the existing sheet, not within one batch. -/
theorem c1_amended (today : String) (j1 j2 : JobRecord)
    (h1 : j1.url = "a") (h2 : j2.url = "a") :
    ((append_jobs_to_excel today [] [j1, j2]).countP
        (fun r => r.url == "a")) = 2 := by
  rw [merge_empty_existing today [j1, j2] (by simp)]
  simp [List.countP_cons, mkRow_url, h1, h2]

/-- Witness for `c1_amended` at the concrete duplicate pair. -/
theorem c1_amended_witness :
    ((append_jobs_to_excel "2026-10-12" [] [recA1, recA2]).countP
        (fun r => r.url == "a")) = 2 :=
  c1_amended "2026-10-12" recA1 recA2 rfl rfl

/-- Claim C2 is false on the code: the state reached from a fresh sheet
by one merge of a batch with an internal URL duplicate has two rows with
URL a, so persisted URLs are not pairwise distinct for every reachable
state. -/
theorem c2_counterexample :
    ¬ urlsDistinct (append_jobs_to_excel "2026-10-12" [] [recA1, recA2]) := by
  decide

/-- Claim C2 (amended): persisted URLs are pairwise distinct for every
state reachable by merges of batches that each have pairwise-distinct
URLs; one merge step preserves the invariant for every such batch. -/
theorem c2_amended :
    (∀ today existing newJobs, urlsDistinct existing → recUrlsDistinct newJobs →
      urlsDistinct (append_jobs_to_excel today existing newJobs)) ∧
    (∀ today batches, (∀ b ∈ batches, recUrlsDistinct b) →
      urlsDistinct (mergeAll today batches)) :=
  ⟨merge_preserves_urlsDistinct, mergeAll_urlsDistinct⟩

/-- Witness for `c2_amended` at concrete distinct-URL batches. -/
theorem c2_amended_witness :
    urlsDistinct (append_jobs_to_excel "2026-10-12" [] [recA1, recB1]) ∧
    urlsDistinct (mergeAll "2026-10-12" [[recA1], [recB1]]) :=
  ⟨c2_amended.1 "2026-10-12" [] [recA1, recB1] (by decide) (by decide),
   c2_amended.2 "2026-10-12" [[recA1], [recB1]] (by decide)⟩

/-- Claim C3: merging the same new_records list twice yields the same
total row count as merging it once; the second merge adds zero rows
(after the first merge every URL of the batch is already in the sheet,
so the second filter drops everything and nothing is written). -/
theorem c3_merge_idempotent (today today2 : String) (existing : List Row)
    (newJobs : List JobRecord) :
    (append_jobs_to_excel today2
        (append_jobs_to_excel today existing newJobs) newJobs).length
      = (append_jobs_to_excel today existing newJobs).length := by
  by_cases hnew : newJobs = []
  · subst hnew; rw [merge_nil_batch]
  · have hne : append_jobs_to_excel today existing newJobs ≠ [] :=
      merge_ne_nil today existing newJobs (Or.inr hnew)
    rw [merge_absorb today2 _ newJobs hne
      (fun j hj => merge_urls_superset today existing newJobs j hj)]

/-- Claim C4 is false on the code: two records with the same URL scraped
under different search terms are both kept by the cross-term aggregation
(each adapter invocation dedups only its own results) and, against an
empty sheet, both are persisted - two rows with URL a, not at most one. -/
theorem c4_counterexample :
    ((append_jobs_to_excel "2026-10-12" []
        (aggregate_across_terms cexScrape ["t1", "t2"])).countP
        (fun r => r.url == "a")) = 2 ∧
    ¬ (((append_jobs_to_excel "2026-10-12" []
        (aggregate_across_terms cexScrape ["t1", "t2"])).countP
        (fun r => r.url == "a")) ≤ 1) := by
  constructor <;> decide

/-- Claim C4 (amended): the orchestrator does aggregate each platform's
records across all search terms before the merge, but a cross-term
duplicate is dropped only when its URL is already present in the sheet
before the merge; when the URL is new, both same-URL records are
persisted. -/
theorem c4_amended (today : String) (sheet : List Row) (ja jb : JobRecord)
    (scrape : String → List JobRecord)
    (hscrape : aggregate_across_terms scrape ["t1", "t2"] = [ja, jb])
    (hurl : jb.url = ja.url) :
    (sheet ≠ [] → ja.url ∈ sheet.map Row.url →
      append_jobs_to_excel today sheet
        (aggregate_across_terms scrape ["t1", "t2"]) = sheet) ∧
    ((append_jobs_to_excel today []
        (aggregate_across_terms scrape ["t1", "t2"])).countP
        (fun r => r.url == ja.url)) = 2 := by
  rw [hscrape]
  constructor
  · intro hs hmem
    apply merge_absorb today sheet [ja, jb] hs
    intro j hj
    rw [List.mem_cons, List.mem_cons] at hj
    rcases hj with rfl | rfl | hj
    · exact hmem
    · rw [hurl]; exact hmem
    · simp at hj
  · rw [merge_empty_existing today [ja, jb] (by simp)]
    simp [List.countP_cons, mkRow_url, hurl]

/-- Witness for `c4_amended` at the concrete two-term scrape. -/
theorem c4_amended_witness :
    (append_jobs_to_excel "2026-10-12" [mkRow "2026-10-11" recT1]
        (aggregate_across_terms cexScrape ["t1", "t2"])
      = [mkRow "2026-10-11" recT1]) ∧
    ((append_jobs_to_excel "2026-10-12" []
        (aggregate_across_terms cexScrape ["t1", "t2"])).countP
        (fun r => r.url == recT1.url)) = 2 := by
  have h := c4_amended "2026-10-12" [mkRow "2026-10-11" recT1] recT1 recT2
    cexScrape (by decide) rfl
  exact ⟨h.1 (by decide) (by decide), h.2⟩

/-- Claim C5: a merge whose records all carry URLs absent from the
existing sheet appends their rows after the existing rows; every
existing row - including the user-editable Applied, Application Date,
Status and Notes cells - is preserved unchanged and in order. -/
theorem c5_merge_frame (today : String) (existing : List Row)
    (newJobs : List JobRecord)
    (h : ∀ j ∈ newJobs, j.url ∉ existing.map Row.url) :
    append_jobs_to_excel today existing newJobs
      = existing ++ newJobs.map (mkRow today) ∧
    (append_jobs_to_excel today existing newJobs).take existing.length
      = existing := by
  have hmain : append_jobs_to_excel today existing newJobs
      = existing ++ newJobs.map (mkRow today) := by
    by_cases hn : newJobs = []
    · subst hn; simp [merge_nil_batch]
    · by_cases he : existing = []
      · subst he; rw [merge_empty_existing today newJobs hn]; simp
      · rw [merge_nonempty_existing today existing newJobs he hn]
        have hfil : (newJobs.map (mkRow today)).filter
            (fun r => !((existing.map Row.url).contains r.url))
            = newJobs.map (mkRow today) := by
          rw [List.filter_eq_self]
          intro r hr
          obtain ⟨j, hj, rfl⟩ := List.mem_map.mp hr
          simp [mkRow_url, List.contains, h j hj]
        rw [hfil]
        have hne : (newJobs.map (mkRow today)).isEmpty = false := by
          simp [hn]
        simp [hne]
  refine ⟨hmain, ?_⟩
  rw [hmain, List.take_left]

/-- Witness for `c5_merge_frame`: a fresh-URL batch lands after the
untouched existing row. -/
theorem c5_merge_frame_witness :
    append_jobs_to_excel "2026-10-12" [mkRow "2026-10-11" recA1] [recB1]
      = [mkRow "2026-10-11" recA1] ++ [recB1].map (mkRow "2026-10-12") ∧
    (append_jobs_to_excel "2026-10-12" [mkRow "2026-10-11" recA1]
        [recB1]).take [mkRow "2026-10-11" recA1].length
      = [mkRow "2026-10-11" recA1] :=
  c5_merge_frame "2026-10-12" [mkRow "2026-10-11" recA1] [recB1] (by decide)

/-! ## String utilities: Python `needle in hay` -/

/-- Prefix test on character lists. -/
def prefB : List Char → List Char → Bool
  | [], _ => true
  | _ :: _, [] => false
  | a :: as, b :: bs => a == b && prefB as bs

/-- Substring test on character lists: the needle is a prefix of some
suffix of the hay. -/
def subB (n : List Char) : List Char → Bool
  | [] => n.isEmpty
  | c :: t => prefB n (c :: t) || subB n t

/-- Python string containment `needle in hay`. -/
def strContains (hay needle : String) : Bool :=
  subB needle.data hay.data

/-- Python `str.lower`, as character-wise `Char.toLower` over the
character data (the same mapping Lean's `String.toLower` performs, but
in a form the kernel can evaluate). -/
def lowerStr (s : String) : String :=
  ⟨s.data.map Char.toLower⟩

/-- Python `str.startswith`, as a prefix test on the character data. -/
def startsWithB (s pre : String) : Bool :=
  prefB pre.data s.data

/-- Python slicing `s[:n]`, on code points. -/
def takeStr (s : String) (n : Nat) : String :=
  ⟨s.data.take n⟩

theorem prefB_append_self (n rest : List Char) :
    prefB n (n ++ rest) = true := by
  induction n with
  | nil => rfl
  | cons a as ih => simp [prefB, ih]

theorem subB_of_prefB (n h : List Char) (hp : prefB n h = true) :
    subB n h = true := by
  cases h with
  | nil =>
    cases n with
    | nil => rfl
    | cons a as => cases hp
  | cons c t => simp [subB, hp]

theorem subB_append_right (n pre h : List Char) (hs : subB n h = true) :
    subB n (pre ++ h) = true := by
  induction pre with
  | nil => exact hs
  | cons c t ih => simp [subB, ih]

/-- A needle surrounded by arbitrary text is still found. -/
theorem subB_surround (n pre post : List Char) :
    subB n (pre ++ (n ++ post)) = true :=
  subB_append_right n pre (n ++ post)
    (subB_of_prefB n (n ++ post) (prefB_append_self n post))

/-! ## Extraction: StepStone cards (`scrape_stepstone`, per-card loop) -/

/-- A span element of a StepStone card: its class attribute as a string
(the value seen by the `class_` lambda; empty for no class) and its
stripped text. -/
structure Span where
  cls : String
  text : String
deriving Repr, DecidableEq

/-- The selector `class_=lambda x: x and word in str(x).lower()`. -/
def spanHasClassWord (w : String) (s : Span) : Bool :=
  strContains (lowerStr s.cls) w

/-- The anchor found by `.//a[contains(@href, "/stellenangebote")]`:
stripped link text and the value of `get_attribute("href")` (empty
models a falsy attribute). -/
structure SSLink where
  href : String
  text : String
deriving Repr, DecidableEq

/-- A rendered StepStone result card as consumed by the per-card loop
of `scrape_stepstone`: the title link when present (`find_element`
raises otherwise and the card is skipped), every span in document
order, every paragraph text in order, and the `time` element carrying
its optional `datetime` attribute. -/
structure SSCard where
  titleLink : Option SSLink
  spans : List Span
  paragraphs : List String
  timeElem : Option (Option String)
deriving Repr, DecidableEq

/-- Company extraction of `scrape_stepstone`: a company-classed span if
any, else the second of all spans when at least two exist, else the
sentinel. -/
def stepstoneCompany (card : SSCard) : String :=
  match card.spans.find? (spanHasClassWord "company") with
  | some s => s.text
  | none =>
    match (if card.spans.length > 1 then card.spans[1]? else none) with
    | some s => s.text
    | none => "N/A"

/-- Location extraction of `scrape_stepstone`: a location-classed span
if any, else the caller-supplied location. -/
def stepstoneLocation (fallbackLocation : String) (card : SSCard) : String :=
  match card.spans.find? (spanHasClassWord "location") with
  | some s => s.text
  | none => fallbackLocation

/-- Description extraction of `scrape_stepstone`: the first paragraph
text, else the empty string. -/
def stepstoneDescription (card : SSCard) : String :=
  match card.paragraphs.head? with
  | some p => p
  | none => ""

/-- Posted-date extraction of `scrape_stepstone`:
`date_elem.get("datetime", "N/A") if date_elem else "N/A"`. -/
def stepstonePostedDate (card : SSCard) : String :=
  match card.timeElem with
  | some attr => attr.getD "N/A"
  | none => "N/A"

/-- One iteration of the per-card loop of `scrape_stepstone`, without
the dedup guard: `none` when the title link is absent (the raised
`find_element` lands in the `except: continue`) or when its href is
falsy; otherwise the normalized record. -/
def extract_stepstone_card (location searchTerm : String)
    (card : SSCard) : Option JobRecord :=
  match card.titleLink with
  | none => none
  | some link =>
    if link.href = "" then none
    else
      let jobUrl := if startsWithB link.href "http" then link.href
                    else "https://www.stepstone.de" ++ link.href
      some { title := link.text
             company := stepstoneCompany card
             location := stepstoneLocation location card
             description := takeStr (stepstoneDescription card) 500
             url := jobUrl
             posted_date := stepstonePostedDate card
             platform := "StepStone"
             search_term := searchTerm }

/-! ## Extraction: LinkedIn cards (`scrape_linkedin`, per-card loop) -/

/-- The anchor found by `href=lambda x: x and "/jobs/view/" in x`. -/
structure LILink where
  href : String
  text : String
deriving Repr, DecidableEq

/-- A rendered LinkedIn result card as consumed by the per-card loop of
`scrape_linkedin`: the `h3.base-search-card__title` text, the
`a[href*="/jobs/view/"]` anchor, the `h4.base-search-card__subtitle`
text, the company-classed anchor text, the
`span.job-search-card__location` text, and the `time` element carrying
its optional `datetime` attribute. -/
structure LICard where
  titleH3 : Option String
  link : Option LILink
  subtitleH4 : Option String
  companyA : Option String
  locationSpan : Option String
  timeElem : Option (Option String)
deriving Repr, DecidableEq

/-- Title element of `scrape_linkedin`: the h3 if present, else the job
link anchor (whose stripped text then serves as the title). -/
def linkedinTitle (c : LICard) : Option String :=
  match c.titleH3 with
  | some t => some t
  | none => c.link.map LILink.text

/-- `job_url` of `scrape_linkedin`: the link href if a link exists,
prefixed with the domain when truthy and not absolute; a falsy href is
left untouched (and rejected later by `if job_url`). -/
def linkedinJobUrl (c : LICard) : Option String :=
  match c.link with
  | none => none
  | some l =>
    if l.href = "" then some l.href
    else if startsWithB l.href "http" then some l.href
    else some ("https://www.linkedin.com" ++ l.href)

/-- Company extraction of `scrape_linkedin`: the h4 subtitle, else a
company-classed anchor, else the sentinel. -/
def linkedinCompany (c : LICard) : String :=
  (c.subtitleH4.orElse (fun _ => c.companyA)).getD "N/A"

/-- Location extraction of `scrape_linkedin`. -/
def linkedinLocation (fallbackLocation : String) (c : LICard) : String :=
  c.locationSpan.getD fallbackLocation

/-- Posted-date extraction of `scrape_linkedin`:
`date_elem.get("datetime", "N/A") if date_elem else "24h"`. -/
def linkedinPostedDate (c : LICard) : String :=
  match c.timeElem with
  | some attr => attr.getD "N/A"
  | none => "24h"

/-- One iteration of the per-card loop of `scrape_linkedin`, without
the dedup guard: skipped when no title element is found or when
`job_url` is falsy; the description is always the empty string, which
the source hard-codes. -/
def extract_linkedin_card (location searchTerm : String)
    (c : LICard) : Option JobRecord :=
  match linkedinTitle c with
  | none => none
  | some jobTitle =>
    match linkedinJobUrl c with
    | none => none
    | some u =>
      if u = "" then none
      else some { title := jobTitle
                  company := linkedinCompany c
                  location := linkedinLocation location c
                  description := ""
                  url := u
                  posted_date := linkedinPostedDate c
                  platform := "LinkedIn"
                  search_term := searchTerm }

/-! ## The within-invocation dedup guard -/

/-- One iteration of a scrape loop body:
`if not any(j["url"] == job_url for j in jobs): jobs.append(record)`,
with a skipped card leaving the list untouched. -/
def collectStep {α : Type} (extract : α → Option JobRecord)
    (jobs : List JobRecord) (card : α) : List JobRecord :=
  match extract card with
  | none => jobs
  | some j => if jobs.any (fun k => k.url == j.url) then jobs
              else jobs ++ [j]

/-- The whole per-card loop of one scrape invocation. -/
def collectJobs {α : Type} (extract : α → Option JobRecord)
    (cards : List α) : List JobRecord :=
  cards.foldl (collectStep extract) []

/-- The list built by one `scrape_stepstone` call over its cards. -/
def scrape_stepstone_cards (location searchTerm : String)
    (cards : List SSCard) : List JobRecord :=
  collectJobs (extract_stepstone_card location searchTerm) cards

/-- The list built by one `scrape_linkedin` call over its cards. -/
def scrape_linkedin_cards (location searchTerm : String)
    (cards : List LICard) : List JobRecord :=
  collectJobs (extract_linkedin_card location searchTerm) cards

/-- Any property of every extractable record holds for every collected
record. -/
theorem collectJobs_forall {α : Type} (extract : α → Option JobRecord)
    (P : JobRecord → Prop) (hP : ∀ c j, extract c = some j → P j)
    (cards : List α) (j : JobRecord)
    (hj : j ∈ collectJobs extract cards) : P j := by
  suffices H : ∀ (cs : List α) (acc : List JobRecord),
      (∀ k ∈ acc, P k) → ∀ k ∈ cs.foldl (collectStep extract) acc, P k by
    exact H cards [] (by simp) j hj
  intro cs
  induction cs with
  | nil => intro acc ha k hk; exact ha k hk
  | cons c cs ih =>
    intro acc ha k hk
    rw [List.foldl_cons] at hk
    refine ih (collectStep extract acc c) ?_ k hk
    intro m hm
    unfold collectStep at hm
    cases hc : extract c with
    | none =>
      simp only [hc] at hm
      exact ha m hm
    | some j0 =>
      simp only [hc] at hm
      split at hm
      · exact ha m hm
      · rw [List.mem_append] at hm
        rcases hm with hm | hm
        · exact ha m hm
        · rw [List.mem_singleton] at hm
          subst hm
          exact hP c m hc

/-- A card whose extraction is skipped leaves the collected list of the
invocation unchanged. -/
theorem collectJobs_skip {α : Type} (extract : α → Option JobRecord)
    (cards : List α) (c : α) (h : extract c = none) :
    collectJobs extract (cards ++ [c]) = collectJobs extract cards := by
  unfold collectJobs
  rw [List.foldl_append]
  simp [collectStep, h]

/-- A string with a non-empty left part of a concatenation is non-empty. -/
theorem str_append_ne_empty (a b : String) (h : a ≠ "") : a ++ b ≠ "" := by
  intro hc
  apply h
  have hd := congrArg String.data hc
  rw [String.data_append] at hd
  rcases List.append_eq_nil.mp hd with ⟨h1, _⟩
  exact String.ext h1

/-- Field-level inversion of the StepStone per-card extraction. -/
theorem extract_stepstone_fields (loc term : String) (c : SSCard)
    (j : JobRecord) (h : extract_stepstone_card loc term c = some j) :
    j.company = stepstoneCompany c ∧ j.posted_date = stepstonePostedDate c ∧
    j.url ≠ "" := by
  unfold extract_stepstone_card at h
  cases hL : c.titleLink with
  | none => rw [hL] at h; cases h
  | some link =>
    rw [hL] at h
    dsimp only at h
    by_cases hh : link.href = ""
    · rw [if_pos hh] at h; cases h
    · rw [if_neg hh] at h
      injection h with h
      subst h
      refine ⟨rfl, rfl, ?_⟩
      simp only [JobRecord.url]
      by_cases hs : startsWithB link.href "http" = true
      · rw [if_pos hs]; exact hh
      · rw [if_neg hs]
        exact str_append_ne_empty _ _ (by decide)

/-- Field-level inversion of the LinkedIn per-card extraction. -/
theorem extract_linkedin_fields (loc term : String) (c : LICard)
    (j : JobRecord) (h : extract_linkedin_card loc term c = some j) :
    j.description = "" ∧ j.posted_date = linkedinPostedDate c ∧
    j.url ≠ "" := by
  unfold extract_linkedin_card at h
  cases hT : linkedinTitle c with
  | none => rw [hT] at h; cases h
  | some t =>
    rw [hT] at h
    cases hU : linkedinJobUrl c with
    | none => rw [hU] at h; cases h
    | some u =>
      rw [hU] at h
      dsimp only at h
      by_cases hu : u = ""
      · rw [if_pos hu] at h; cases h
      · rw [if_neg hu] at h
        injection h with h
        subst h
        exact ⟨rfl, rfl, hu⟩

/-- Claim C6: a card with no qualifying link yields no record on either
platform; such a skipped card leaves the collected list of the
invocation unchanged; and no collected record ever carries an empty
URL, on either platform. -/
theorem c6_skip_on_missing_key :
    (∀ loc term c, c.titleLink = none →
      extract_stepstone_card loc term c = none) ∧
    (∀ loc term c, c.link = none →
      extract_linkedin_card loc term c = none) ∧
    (∀ loc term cards c, extract_stepstone_card loc term c = none →
      scrape_stepstone_cards loc term (cards ++ [c])
        = scrape_stepstone_cards loc term cards) ∧
    (∀ loc term cards c, extract_linkedin_card loc term c = none →
      scrape_linkedin_cards loc term (cards ++ [c])
        = scrape_linkedin_cards loc term cards) ∧
    (∀ loc term cards j, j ∈ scrape_stepstone_cards loc term cards →
      j.url ≠ "") ∧
    (∀ loc term cards j, j ∈ scrape_linkedin_cards loc term cards →
      j.url ≠ "") := by
  refine ⟨?_, ?_, ?_, ?_, ?_, ?_⟩
  · intro loc term c hc
    unfold extract_stepstone_card
    rw [hc]
  · intro loc term c hc
    unfold extract_linkedin_card
    have hT : linkedinTitle c = c.titleH3.map id := by
      unfold linkedinTitle
      cases c.titleH3 with
      | none => rw [hc]; rfl
      | some t => rfl
    cases hh : linkedinTitle c with
    | none => rfl
    | some t =>
      have hU : linkedinJobUrl c = none := by
        unfold linkedinJobUrl; rw [hc]
      rw [hU]
  · intro loc term cards c hc
    exact collectJobs_skip _ cards c hc
  · intro loc term cards c hc
    exact collectJobs_skip _ cards c hc
  · intro loc term cards j hj
    exact collectJobs_forall _ (fun k => k.url ≠ "")
      (fun c k hk => (extract_stepstone_fields loc term c k hk).2.2)
      cards j hj
  · intro loc term cards j hj
    exact collectJobs_forall _ (fun k => k.url ≠ "")
      (fun c k hk => (extract_linkedin_fields loc term c k hk).2.2)
      cards j hj

/-- A StepStone card with no link at all. -/
def ssCardNoLink : SSCard :=
  { titleLink := none
    spans := [{ cls := "", text := "Acme" }]
    paragraphs := ["some text"]
    timeElem := none }

/-- A LinkedIn card with no job link. -/
def liCardNoLink : LICard :=
  { titleH3 := none, link := none, subtitleH4 := some "Acme",
    companyA := none, locationSpan := some "Berlin", timeElem := none }

/-- Witness for `c6_skip_on_missing_key` at concrete linkless cards. -/
theorem c6_skip_on_missing_key_witness :
    extract_stepstone_card "Berlin" "werkstudent IT" ssCardNoLink = none ∧
    extract_linkedin_card "Berlin" "werkstudent IT" liCardNoLink = none ∧
    scrape_stepstone_cards "Berlin" "werkstudent IT" ([] ++ [ssCardNoLink])
      = scrape_stepstone_cards "Berlin" "werkstudent IT" [] :=
  ⟨c6_skip_on_missing_key.1 "Berlin" "werkstudent IT" ssCardNoLink rfl,
   c6_skip_on_missing_key.2.1 "Berlin" "werkstudent IT" liCardNoLink rfl,
   c6_skip_on_missing_key.2.2.1 "Berlin" "werkstudent IT" [] ssCardNoLink
     (c6_skip_on_missing_key.1 "Berlin" "werkstudent IT" ssCardNoLink rfl)⟩

/-- Claim C7: when no company-classed span exists, StepStone company
extraction yields the text of the second of all spans when at least two
exist, and the sentinel otherwise; the company of every emitted record
is computed exactly by this chain (extraction never crashes or skips a
card for a missing company). -/
theorem c7_company_fallback :
    (∀ c : SSCard, c.spans.find? (spanHasClassWord "company") = none →
      ∀ h2 : 2 ≤ c.spans.length,
      stepstoneCompany c = (c.spans.get ⟨1, by omega⟩).text) ∧
    (∀ c : SSCard, c.spans.find? (spanHasClassWord "company") = none →
      c.spans.length ≤ 1 → stepstoneCompany c = "N/A") ∧
    (∀ loc term c j, extract_stepstone_card loc term c = some j →
      j.company = stepstoneCompany c) := by
  refine ⟨?_, ?_, ?_⟩
  · intro c hf h2
    unfold stepstoneCompany
    rw [hf]
    dsimp only
    have hgt : c.spans.length > 1 := by omega
    rw [if_pos hgt, List.getElem?_eq_getElem (by omega)]
    rfl
  · intro c hf h1
    unfold stepstoneCompany
    rw [hf]
    dsimp only
    have hng : ¬ (c.spans.length > 1) := by omega
    rw [if_neg hng]
  · intro loc term c j h
    exact (extract_stepstone_fields loc term c j h).1

/-- A StepStone card with two plain spans and none carrying a
company-like class. -/
def ssCardTwoSpans : SSCard :=
  { titleLink := some { href := "/stellenangebote--123", text := "T" }
    spans := [{ cls := "res-location", text := "Berlin" },
              { cls := "", text := "Acme" }]
    paragraphs := []
    timeElem := none }

/-- A StepStone card with no spans at all. -/
def ssCardNoSpans : SSCard :=
  { titleLink := some { href := "/stellenangebote--123", text := "T" }
    spans := []
    paragraphs := []
    timeElem := none }

/-- Witness for `c7_company_fallback` at concrete cards. -/
theorem c7_company_fallback_witness :
    stepstoneCompany ssCardTwoSpans = "Acme" ∧
    stepstoneCompany ssCardNoSpans = "N/A" := by
  constructor
  · have h := c7_company_fallback.1 ssCardTwoSpans (by decide) (by decide)
    rw [h]
    rfl
  · exact c7_company_fallback.2.1 ssCardNoSpans (by decide) (by decide)

/-- A LinkedIn card with a title and link but no time element. -/
def liCardNoDate : LICard :=
  { titleH3 := some "Werkstudent IT"
    link := some { href := "/jobs/view/123", text := "Werkstudent IT" }
    subtitleH4 := some "Acme"
    companyA := none
    locationSpan := some "Berlin"
    timeElem := none }

/-- A StepStone card with a title link but no time element. -/
def ssCardNoDate : SSCard :=
  { titleLink := some { href := "/stellenangebote--123", text := "T" }
    spans := []
    paragraphs := []
    timeElem := none }

/-- Claim C8 is false on the code: on LinkedIn, a card with no date
element produces the token "24h" as posted_date, not the sentinel
"N/A". -/
theorem c8_counterexample :
    (extract_linkedin_card "Berlin" "werkstudent IT" liCardNoDate).map
        JobRecord.posted_date = some "24h" ∧
    ("24h" : String) ≠ "N/A" := by
  constructor
  · decide
  · decide

/-- Claim C8 (amended): a record emitted from a card with no date
element has posted_date "N/A" on StepStone but "24h" on LinkedIn; the
LinkedIn "N/A" sentinel instead marks a date element whose datetime
attribute is missing. -/
theorem c8_amended :
    (∀ loc term c j, c.timeElem = none →
      extract_stepstone_card loc term c = some j →
      j.posted_date = "N/A") ∧
    (∀ loc term c j, c.timeElem = none →
      extract_linkedin_card loc term c = some j →
      j.posted_date = "24h") ∧
    (∀ loc term c j, c.timeElem = some none →
      extract_linkedin_card loc term c = some j →
      j.posted_date = "N/A") := by
  refine ⟨?_, ?_, ?_⟩
  · intro loc term c j ht h
    rw [(extract_stepstone_fields loc term c j h).2.1]
    unfold stepstonePostedDate
    rw [ht]
  · intro loc term c j ht h
    rw [(extract_linkedin_fields loc term c j h).2.1]
    unfold linkedinPostedDate
    rw [ht]
  · intro loc term c j ht h
    rw [(extract_linkedin_fields loc term c j h).2.1]
    unfold linkedinPostedDate
    rw [ht]
    rfl

/-- Witness for `c8_amended` at concrete no-date cards. -/
theorem c8_amended_witness :
    (extract_stepstone_card "Berlin" "t" ssCardNoDate).map
        JobRecord.posted_date = some "N/A" ∧
    (extract_linkedin_card "Berlin" "t" liCardNoDate).map
        JobRecord.posted_date = some "24h" := by
  constructor
  · rcases hE : extract_stepstone_card "Berlin" "t" ssCardNoDate with _ | j
    · exact absurd hE (by decide)
    · rw [Option.map_some',
        c8_amended.1 "Berlin" "t" ssCardNoDate j rfl hE]
  · rcases hE : extract_linkedin_card "Berlin" "t" liCardNoDate with _ | j
    · exact absurd hE (by decide)
    · rw [Option.map_some',
        c8_amended.2.1 "Berlin" "t" liCardNoDate j rfl hE]

/-! ## Resume path: `detect_language` and `build_resume_prompt`
(`src/resume_generator.py`) -/

/-- The German marker substrings of `detect_language`. -/
def german_markers : List String :=
  ["und", "der", "die", "das", "mit", "für", "bei", "nicht",
   "entwickeln", "bewerben", "kenntnisse", "erfahrung",
   "arbeitgeber", "bereich", "teamfähig", "studium",
   "werkstudent", "praktikum"]

/-- The English marker substrings of `detect_language`. -/
def english_markers : List String :=
  ["and", "the", "with", "for", "software", "engineer",
   "responsibilities", "requirements", "experience",
   "working student", "internship"]

/-- `detect_language` from `src/resume_generator.py`: lowercase the
text, count how many marker substrings of each language occur, and
return "German" only when the German score strictly exceeds the
English score. -/
def detect_language (text : String) : String :=
  let t := lowerStr text
  let germanScore := german_markers.countP (fun w => strContains t w)
  let englishScore := english_markers.countP (fun w => strContains t w)
  if germanScore > englishScore then "German" else "English"

/-- The English branch of `language_instruction`. -/
def englishInstruction : String :=
  "Write the entire resume in fluent, professional English."

/-- The German branch of `language_instruction`. -/
def germanInstruction : String :=
  "Write the entire resume in fluent, professional German. Use clear, simple sentences suitable for a working student CV."

/-- The template text of `build_resume_prompt` before the language
instruction. -/
def promptHead : String :=
  "\nYou are an expert resume writer for software and AI roles.\n\nTask:\nUsing the CANDIDATE_PROFILE and JOB_DESCRIPTION below, create a tailored, one-to-two-page resume in clean Markdown format.\n\nLanguage:\n- "

/-- The template text between the language instruction and the profile
JSON. -/
def promptMid : String :=
  "\n\nRequirements:\n- Focus on working student / junior software, data, or AI roles.\n- Start with a short professional summary tailored to the job.\n- Emphasize the most relevant skills for this specific job (hard skills first).\n- Reorder and selectively include experience and projects that best match the job description.\n- Use concise bullet points with strong action verbs and measurable impact where possible.\n- Use a neutral, professional tone.\n- Do NOT invent fake companies or degrees.\n- You may slightly rephrase tasks to better match the job wording, but keep them truthful.\n- Output ONLY the resume in Markdown (no explanation, no preamble).\n\nCANDIDATE_PROFILE (JSON):\n"

/-- The template text between the profile JSON and the job JSON. -/
def promptTail : String :=
  "\n\nJOB_DESCRIPTION (JSON):\n"

/-- `build_resume_prompt` from `src/resume_generator.py`, with the
profile and job dicts already serialized to JSON text (json.dumps is an
external collaborator). -/
def build_resume_prompt (profileText jobText targetLanguage : String) :
    String :=
  let languageInstruction :=
    if startsWithB (lowerStr targetLanguage) "en" then englishInstruction
    else germanInstruction
  promptHead ++ languageInstruction ++ promptMid ++ profileText
    ++ promptTail ++ jobText ++ "\n"

/-- The prompt built for target language "German" contains the German
instruction text, whatever the serialized profile and job are. -/
theorem prompt_german_contains_instruction (profileText jobText : String) :
    strContains (build_resume_prompt profileText jobText "German")
      germanInstruction = true := by
  unfold build_resume_prompt
  have hcond : startsWithB (lowerStr "German") "en" = false := by decide
  rw [hcond]
  unfold strContains
  simp only [String.data_append, List.append_assoc, Bool.false_eq_true,
    if_false]
  exact subB_surround _ _ _

/-- `detect_language` on scores: strictly more German markers than
English markers means the German branch. -/
theorem detect_language_eq_german (s : String)
    (hG : 0 < german_markers.countP (fun w => strContains (lowerStr s) w))
    (hE : english_markers.countP (fun w => strContains (lowerStr s) w) = 0) :
    detect_language s = "German" := by
  unfold detect_language
  dsimp only
  rw [hE, if_pos hG]

/-- A description containing the three required words together with
enough English marker words. -/
def c9Description : String := "und der Entwicklung the and with"

/-- Claim C9 is false on the code: this description contains "und",
"der" and "Entwicklung", yet detection is score-based, and here three
English markers outweigh the two matching German markers, so the
English branch is taken. -/
theorem c9_counterexample :
    strContains c9Description "und" = true ∧
    strContains c9Description "der" = true ∧
    strContains c9Description "Entwicklung" = true ∧
    detect_language c9Description = "English" ∧
    detect_language c9Description ≠ "German" := by
  refine ⟨by decide, by decide, by decide, by decide, by decide⟩

/-- Claim C9 (amended): for every job description whose lowercased text
contains "und", "der" and "entwicklung" and contains none of the
English marker substrings, language detection returns the German
branch, and the prompt built for the detected language contains the
instruction requesting German output. -/
theorem c9_amended (s : String)
    (h1 : strContains (lowerStr s) "und" = true)
    (h2 : strContains (lowerStr s) "der" = true)
    (h3 : strContains (lowerStr s) "entwicklung" = true)
    (h4 : ∀ w ∈ english_markers, strContains (lowerStr s) w = false) :
    detect_language s = "German" ∧
    ∀ profileText jobText,
      strContains
        (build_resume_prompt profileText jobText (detect_language s))
        germanInstruction = true := by
  have hdet : detect_language s = "German" := by
    apply detect_language_eq_german
    · rw [List.countP_pos_iff]
      exact ⟨"und", by decide, h1⟩
    · rw [List.countP_eq_zero]
      intro w hw
      simp [h4 w hw]
  refine ⟨hdet, ?_⟩
  intro profileText jobText
  rw [hdet]
  exact prompt_german_contains_instruction profileText jobText

/-- A fully German description with no English markers. -/
def c9GermanDescription : String :=
  "Werkstudent gesucht und der Bereich Entwicklung bietet Praktikum"

/-- Witness for `c9_amended` at a concrete German description. -/
theorem c9_amended_witness :
    detect_language c9GermanDescription = "German" ∧
    strContains
      (build_resume_prompt "PROFILE" "JOB"
        (detect_language c9GermanDescription))
      germanInstruction = true := by
  have h := c9_amended c9GermanDescription (by decide) (by decide)
    (by decide) (by decide)
  exact ⟨h.1, h.2 "PROFILE" "JOB"⟩

/-- Claim C10: every record the LinkedIn adapter emits carries an empty
description (the source hard-codes ""), also after the dedup guard;
and language detection returns "English" whenever the German score does
not strictly exceed the English score - in particular on the empty
string, where both scores are zero. -/
theorem c10_linkedin_description_english :
    (∀ loc term c j, extract_linkedin_card loc term c = some j →
      j.description = "") ∧
    (∀ loc term cards j, j ∈ scrape_linkedin_cards loc term cards →
      j.description = "") ∧
    (∀ text : String,
      ¬ (german_markers.countP (fun w => strContains (lowerStr text) w) >
         english_markers.countP (fun w => strContains (lowerStr text) w)) →
      detect_language text = "English") ∧
    detect_language "" = "English" := by
  refine ⟨?_, ?_, ?_, ?_⟩
  · intro loc term c j h
    exact (extract_linkedin_fields loc term c j h).1
  · intro loc term cards j hj
    exact collectJobs_forall _ (fun k => k.description = "")
      (fun c k hk => (extract_linkedin_fields loc term c k hk).1) cards j hj
  · intro text hns
    unfold detect_language
    dsimp only
    rw [if_neg hns]
  · decide

/-- Witness for `c10_linkedin_description_english` at a concrete card
and the empty description. -/
theorem c10_linkedin_description_english_witness :
    (extract_linkedin_card "Berlin" "t" liCardNoDate).map
        JobRecord.description = some "" ∧
    detect_language "" = "English" := by
  constructor
  · rcases hE : extract_linkedin_card "Berlin" "t" liCardNoDate with _ | j
    · exact absurd hE (by decide)
    · rw [Option.map_some',
        c10_linkedin_description_english.1 "Berlin" "t" liCardNoDate j hE]
  · exact c10_linkedin_description_english.2.2.1 "" (by decide)
